import Mathlib

/-!
Verification development for the `lsp-lm` MediaWiki-dump-to-Parquet converter.

The definitions below are a shallow embedding of the C++ sources under
`src/langmod/mediawiki` and `src/langmod/mediawiki2parquet`:

* `ParseUInt64` and `ParseTimestamp` embed `mediawiki/util.cc` (the latter
  follows the libstdc++ `std::get_time` / `time_get::get` matching semantics
  for the two concrete format strings used by the source);
* `ContributorListener`, `RevisionListener`, `PageListener` embed the
  element-scoped state machines of `mediawiki/wiki.cc`, including every
  `[[fallthrough]]` chain;
* `pump` / `Parser` / `PageReader` embed `Parser::Parse`, `Parser::Walk`,
  `Parser::Resume` and `PageReader::Next`, with the underlying expat parser
  modelled as a stream of scanner events plus a well-formedness flag;
* `PageWriter.Write` and the `Transform` loop embed
  `mediawiki2parquet/writer.cc` and `transform.cc`;
* `GuessFileType` embeds the file-type sniffer, with `std::istream::get`
  modelled byte-exactly (newline delimiter, zero-extraction failbit);
* `read_chunk` / `inflate_chunk` embed the bzip2 stream-buffer adapter of
  `mediawiki2parquet/bz2.cc`, with the libbz2 decoder modelled as an oracle
  sequence of decode-step results;
* `MakeTargetFiles` embeds the output-name derivation of
  `mediawiki2parquet/main.cc`.

Machine integers (`uint64_t`) are modelled as `Nat` with explicit clamping or
reduction modulo `2 ^ 64` where the C semantics require it.
-/

namespace mediawiki

/-! ## Character classification (C locale) -/

/-- Model of C `isspace` in the default locale: space, tab, newline, vertical
tab, form feed, carriage return. -/
def isSpaceC (c : Char) : Bool :=
  c = ' ' ∨ c = '\t' ∨ c = '\n' ∨ c = Char.ofNat 11 ∨ c = Char.ofNat 12 ∨ c = '\x0d'

/-! ## ParseUInt64 (util.cc, lines 42-46)

The source calls `std::strtoull(str.c_str(), &end, 10)` and returns
`std::nullopt` iff `end == str.c_str()`.  `strtoull` skips leading
whitespace, accepts one optional `'+'` or `'-'`, then consumes a run of
base-10 digits; with no digits it leaves `end` at the start of the string.
On overflow it returns `ULLONG_MAX`; for `'-'` it returns the unsigned
negation of the converted value. -/

/-- Numeric value of a digit run. -/
def digitsVal (ds : List Char) : Nat :=
  ds.foldl (fun a c => a * 10 + (c.toNat - 48)) 0

/-- Model of `ParseUInt64` from `util.cc`: `strtoull(str, &end, 10)` with the
`end == str` check.  `strtoull` skips leading whitespace, takes one optional
sign, then a digit run; it clamps overflow to `ULLONG_MAX` and negates (as
unsigned) under `'-'`.  Returns `some` iff at least one digit was
consumed. -/
def ParseUInt64 (str : String) : Option Nat :=
  let afterWs := str.data.dropWhile isSpaceC
  let neg : Bool := afterWs.head? = some '-'
  let afterSign :=
    if afterWs.head? = some '-' ∨ afterWs.head? = some '+' then afterWs.tail else afterWs
  let digits := afterSign.takeWhile Char.isDigit
  if digits.isEmpty then
    none
  else
    let clamped := min (digitsVal digits) (2 ^ 64 - 1)
    some (if neg then (2 ^ 64 - clamped) % 2 ^ 64 else clamped)

/-! ## ParseTimestamp (util.cc, lines 9-40)

`ParseTimestamp(str, fmt)` builds `std::stringstream ss(str)`, runs
`ss >> std::get_time(&tm, fmt)` and fails iff `ss.fail()`.  The two format
strings used are `"%Y-%m-%dT%H:%M:%SZ"` and `"%Y%m%d%H%M%S"`.  We embed the
libstdc++ (GCC 12) implementation of `time_get::get` for exactly the
directives and literals these formats contain:

* `%Y`: `_M_extract_num(0, 9999, 4)`, storing `value - 1900`;
* `%m`: `_M_extract_num(1, 12, 2)`, storing `value - 1`;
* `%d`: skips one leading space character, then `_M_extract_num(1, 31, 2)`;
* `%H`: `_M_extract_num(0, 23, 2)`; `%M`: `_M_extract_num(0, 59, 2)`;
* `%S`: `_M_extract_num(0, 60, 2)`;
* literal characters match case-insensitively;
* the sentry of `operator>>` skips leading whitespace and fails on an
  empty stream;
* if the input is exhausted right after a `%` directive, `get` stops with
  `eofbit` only (no `failbit`), i.e. the rest of the format is skipped and
  the parse still counts as a success;
* if the input is exhausted while format remains before a directive or a
  literal, `failbit` is set.

The source converts the parsed `std::tm` to milliseconds with `mktime`,
which depends on the host time zone (spec section 9 flags this); none of the
claims below inspects the numeric value, so the model keeps the parsed
civil-time fields. -/

/-- Model of `std::tm` restricted to the fields the two formats fill
(zero-initialised, as in `std::tm tm = {};`). -/
structure Tm where
  tm_sec : Int := 0
  tm_min : Int := 0
  tm_hour : Int := 0
  tm_mday : Int := 0
  tm_mon : Int := 0
  tm_year : Int := 0
deriving DecidableEq, Repr

/-- The `tm` member a numeric format directive stores into. -/
inductive TmField where
  | sec
  | minute
  | hour
  | mday
  | mon
  | year
deriving DecidableEq, Repr

/-- Store an extracted value into the `tm` member, applying the offsets used
by libstdc++ (`tm_year = value - 1900`, `tm_mon = value - 1`). -/
def setTmField (tm : Tm) : TmField → Nat → Tm
  | .sec, v => { tm with tm_sec := v }
  | .minute, v => { tm with tm_min := v }
  | .hour, v => { tm with tm_hour := v }
  | .mday, v => { tm with tm_mday := v }
  | .mon, v => { tm with tm_mon := (v : Int) - 1 }
  | .year, v => { tm with tm_year := (v : Int) - 1900 }

/-- One step of libstdc++ `_M_extract_num`: consume up to `len` digits
greedily, accumulating `v`; a digit that would push the value over `mx` stops
the loop without being consumed.  Returns (digit count, value, rest). -/
def extractNumGo (mx : Nat) : Nat → List Char → Nat → Nat → Nat × Nat × List Char
  | 0, cs, i, v => (i, v, cs)
  | _ + 1, [], i, v => (i, v, [])
  | fuel + 1, c :: cs, i, v =>
    if c.isDigit then
      let v' := v * 10 + (c.toNat - 48)
      if v' > mx then (i, v', c :: cs) else extractNumGo mx fuel cs (i + 1) v'
    else (i, v, c :: cs)

/-- Model of libstdc++ `time_get::_M_extract_num(beg, end, mem, mn, mx, len)`:
succeeds iff at least one digit was consumed and the value lies in
`[mn, mx]`. -/
def extractNum (mn mx len : Nat) (cs : List Char) : Option (Nat × List Char) :=
  let r := extractNumGo mx len cs 0 0
  if 1 ≤ r.1 ∧ mn ≤ r.2.1 ∧ r.2.1 ≤ mx then some (r.2.1, r.2.2) else none

/-- A compiled format-string item: a numeric directive (with range, width,
target field and the single-space skip used by `%d`) or a literal
character. -/
inductive FmtItem where
  | num (mn mx len : Nat) (fld : TmField) (skipSp : Bool)
  | lit (c : Char)
deriving DecidableEq

/-- Model of the C++11 `time_get::get` loop of libstdc++ over a compiled
format: returns the filled `tm` and the unconsumed input on success, `none`
when `failbit` would be set.  Mirrors the early successful stop (with
`eofbit` only) when input runs out right after a numeric directive. -/
def runFmtR : List FmtItem → List Char → Tm → Option (Tm × List Char)
  | [], cs, tm => some (tm, cs)
  | _ :: _, [], _ => none
  | .lit c :: rest, ch :: cs, tm =>
    if ch.toLower = c.toLower ∨ ch.toUpper = c.toUpper then runFmtR rest cs tm else none
  | .num mn mx len fld sk :: rest, ch :: cs', tm =>
    let cs0 := if sk ∧ isSpaceC ch then cs' else ch :: cs'
    match extractNum mn mx len cs0 with
    | none => none
    | some (v, csr) =>
      let tm' := setTmField tm fld v
      if csr.isEmpty then some (tm', []) else runFmtR rest csr tm'

/-- Model of `ss >> std::get_time(&tm, fmt)` on `std::stringstream ss(str)`:
the sentry skips leading whitespace (failing at end of stream), then the
format loop runs on a zero-initialised `tm`. -/
def GetTime (fmt : List FmtItem) (str : String) : Option (Tm × List Char) :=
  let cs := str.data.dropWhile isSpaceC
  if cs.isEmpty then none else runFmtR fmt cs {}

/-- The compiled form of `"%Y-%m-%dT%H:%M:%SZ"`. -/
def longFmtItems : List FmtItem :=
  [.num 0 9999 4 .year false, .lit '-', .num 1 12 2 .mon false, .lit '-',
   .num 1 31 2 .mday true, .lit 'T', .num 0 23 2 .hour false, .lit ':',
   .num 0 59 2 .minute false, .lit ':', .num 0 60 2 .sec false, .lit 'Z']

/-- The compiled form of `"%Y%m%d%H%M%S"`. -/
def shortFmtItems : List FmtItem :=
  [.num 0 9999 4 .year false, .num 1 12 2 .mon false, .num 1 31 2 .mday true,
   .num 0 23 2 .hour false, .num 0 59 2 .minute false, .num 0 60 2 .sec false]

/-- Model of `ParseTimestampLong` (`util.cc`, line 24): `ParseTimestamp(str,
"%Y-%m-%dT%H:%M:%SZ")`, keeping the parsed civil time. -/
def ParseTimestampLong (str : String) : Option Tm :=
  (GetTime longFmtItems str).map Prod.fst

/-- Model of `ParseTimestampShort` (`util.cc`, line 28): `ParseTimestamp(str,
"%Y%m%d%H%M%S")`. -/
def ParseTimestampShort (str : String) : Option Tm :=
  (GetTime shortFmtItems str).map Prod.fst

/-- Model of the one-argument `ParseTimestamp` (`util.cc`, lines 32-40): try
the long layout, then the short one. -/
def ParseTimestamp (str : String) : Option Tm :=
  match ParseTimestampLong str with
  | some ts => some ts
  | none =>
    match ParseTimestampShort str with
    | some ts => some ts
    | none => none

/-- Whether a layout matches the WHOLE input (empty remainder).  This is the
"fully consumes the input" notion used by the specification's description of
timestamp parsing; the source itself never checks it. -/
def ConsumesAll (fmt : List FmtItem) (str : String) : Bool :=
  match GetTime fmt str with
  | some (_, []) => true
  | _ => false

/-! ## Data model (wiki.h) -/

/-- `struct Contributor` of `wiki.h`. -/
structure Contributor where
  username : Option String := none
  id : Option Nat := none
  ip : Option String := none
  deleted : Bool := false
deriving DecidableEq, Repr

/-- `struct Revision` of `wiki.h`.  The C++ field `timestamp` holds
milliseconds obtained through the timezone-dependent `mktime`; the model
keeps the parsed civil time (`Tm`), whose zero value corresponds to the
zero-initialised `std::chrono::milliseconds`. -/
structure Revision where
  id : Nat := 0
  parent_id : Option Nat := none
  timestamp : Tm := {}
  contributor : Contributor := {}
  minor : Bool := false
  comment : Option String := none
  model : String := ""
  format : String := ""
  text : String := ""
  sha1 : String := ""
deriving DecidableEq, Repr

/-- `struct Upload` of `wiki.h` (reserved; never constructed by the
extraction code — the `Upload` machine is stubbed out). -/
structure Upload where
  timestamp : Tm := {}
  contributor : Contributor := {}
  comment : String := ""
  filename : String := ""
  src : String := ""
  size : Nat := 0
deriving DecidableEq, Repr

/-- `struct DiscussionThreadingInfo` of `wiki.h` (reserved; never
constructed by the extraction code). -/
structure DiscussionThreadingInfo where
  thread_subject : String := ""
  thread_page : String := ""
  thread_author : String := ""
  thread_edit_status : String := ""
  thread_type : String := ""
  thread_parent : Nat := 0
  thread_ancestor : Nat := 0
  thread_id : Nat := 0
deriving DecidableEq, Repr

/-- `struct Page` of `wiki.h`. -/
structure Page where
  title : String := ""
  ns : Nat := 0
  id : Nat := 0
  redirect : Option String := none
  restrictions : Option String := none
  revisions : List Revision := []
  uploads : List Upload := []
  dti : Option DiscussionThreadingInfo := none
deriving DecidableEq, Repr

/-! ## Scanner events

The expat wrapper (`Parser` in `wiki.cc`) forwards exactly three callback
kinds to a listener: character data, element begin (name plus the flat
alternating name/value attribute array), element end.  A parsed document is
modelled as the sequence of events expat would deliver, plus a flag telling
whether the byte stream is well-formed XML (a parse error surfaces after the
events preceding it). -/

/-- One scanner event. -/
inductive Event where
  | elemBegin (name : String) (attrs : List String)
  | chars (text : String)
  | elemEnd (name : String)
deriving DecidableEq, Repr

/-! ## ContributorListener (wiki.cc, lines 220-328) -/

/-- `ContributorListener::State`. -/
inductive CState where
  | ContributorBegin
  | Username
  | ID
  | IP
  | ContributorEnd
deriving DecidableEq, Repr

/-- Mutable parts of `ContributorListener`. -/
structure ContributorListener where
  text_ : String := ""
  state_ : CState := .ContributorBegin
  contributor_ : Contributor := {}
deriving DecidableEq, Repr

/-- `ContributorListener::GetContributor`. -/
def ContributorListener.GetContributor (cl : ContributorListener) : Contributor :=
  cl.contributor_

/-- `ContributorListener::HandleCharacterData` (lines 228-238). -/
def ContributorListener.HandleCharacterData (cl : ContributorListener)
    (text : String) : ContributorListener :=
  match cl.state_ with
  | .Username | .ID | .IP => { cl with text_ := cl.text_ ++ text }
  | _ => cl

/-- `ContributorListener::HandleElementBegin` (lines 240-281).  The
`[[fallthrough]]` chains are written as nested if-chains: each `else` first
performs the state assignment of the C++ `else` branch and then continues
with the next `case` body. -/
def ContributorListener.HandleElementBegin (cl : ContributorListener)
    (elem : String) (attrs : List String) : ContributorListener :=
  match cl.state_ with
  | .ContributorBegin =>
    if elem = "contributor" then
      { cl with state_ := .Username,
                contributor_ := { deleted := attrs.contains "deleted" } }
    else cl
  | .Username =>
    if elem = "username" then { cl with text_ := "" }
    else if elem = "id" then { cl with state_ := .ID, text_ := "" }
    else if elem = "ip" then { cl with state_ := .IP, text_ := "" }
    else { cl with state_ := .ContributorEnd }
  | .ID =>
    if elem = "id" then { cl with text_ := "" }
    else if elem = "ip" then { cl with state_ := .IP, text_ := "" }
    else { cl with state_ := .ContributorEnd }
  | .IP =>
    if elem = "ip" then { cl with text_ := "" }
    else { cl with state_ := .ContributorEnd }
  | .ContributorEnd => cl

/-- `ContributorListener::HandleElementEnd` (lines 283-328).  On `</id>` with
an unparsable accumulator the source hits a TODO comment and leaves both the
field and the state unchanged. -/
def ContributorListener.HandleElementEnd (cl : ContributorListener)
    (elem : String) : ContributorListener :=
  match cl.state_ with
  | .Username =>
    if elem = "username" then
      { cl with contributor_ := { cl.contributor_ with username := some cl.text_ },
                state_ := .ID }
    else if elem = "id" then
      match ParseUInt64 cl.text_ with
      | some v =>
        { cl with contributor_ := { cl.contributor_ with id := some v }, state_ := .IP }
      | none => { cl with state_ := .ID }
    else if elem = "ip" then
      { cl with contributor_ := { cl.contributor_ with ip := some cl.text_ },
                state_ := .ContributorEnd }
    else if elem = "contributor" then { cl with state_ := .ContributorBegin }
    else { cl with state_ := .ContributorEnd }
  | .ID =>
    if elem = "id" then
      match ParseUInt64 cl.text_ with
      | some v =>
        { cl with contributor_ := { cl.contributor_ with id := some v }, state_ := .IP }
      | none => cl
    else if elem = "ip" then
      { cl with contributor_ := { cl.contributor_ with ip := some cl.text_ },
                state_ := .ContributorEnd }
    else if elem = "contributor" then { cl with state_ := .ContributorBegin }
    else { cl with state_ := .ContributorEnd }
  | .IP =>
    if elem = "ip" then
      { cl with contributor_ := { cl.contributor_ with ip := some cl.text_ },
                state_ := .ContributorEnd }
    else if elem = "contributor" then { cl with state_ := .ContributorBegin }
    else { cl with state_ := .ContributorEnd }
  | .ContributorEnd =>
    if elem = "contributor" then { cl with state_ := .ContributorBegin } else cl
  | .ContributorBegin => cl

/-- Dispatch one scanner event to a `ContributorListener`. -/
def ContributorListener.HandleEvent (cl : ContributorListener) :
    Event → ContributorListener
  | .elemBegin n a => cl.HandleElementBegin n a
  | .chars t => cl.HandleCharacterData t
  | .elemEnd n => cl.HandleElementEnd n

/-- Run a `ContributorListener` over a list of scanner events. -/
def ContributorListener.Run (cl : ContributorListener) :
    List Event → ContributorListener
  | [] => cl
  | e :: rest => (cl.HandleEvent e).Run rest

/-! ## RevisionListener (wiki.cc, lines 330-515) -/

/-- `RevisionListener::State`. -/
inductive RState where
  | RevisionBegin
  | ID
  | ParentID
  | Timestamp
  | ContributorBegin
  | Contributor
  | ContributorEnd
  | Minor
  | Comment
  | Model
  | Format
  | Text
  | SHA1
  | RevisionEnd
deriving DecidableEq, Repr

/-- Mutable parts of `RevisionListener`. -/
structure RevisionListener where
  text_ : String := ""
  state_ : RState := .RevisionBegin
  revision_ : Revision := {}
  contrib_listener_ : ContributorListener := {}
deriving DecidableEq, Repr

/-- `RevisionListener::GetRevision`. -/
def RevisionListener.GetRevision (rl : RevisionListener) : Revision :=
  rl.revision_

/-- `RevisionListener::HandleCharacterData` (lines 339-358). -/
def RevisionListener.HandleCharacterData (rl : RevisionListener)
    (text : String) : RevisionListener :=
  match rl.state_ with
  | .ID | .ParentID | .Timestamp | .Minor | .Comment | .Model | .Format | .Text | .SHA1 =>
    { rl with text_ := rl.text_ ++ text }
  | .Contributor =>
    { rl with contrib_listener_ := rl.contrib_listener_.HandleCharacterData text }
  | _ => rl

/-- `RevisionListener::HandleElementBegin` (lines 360-447).  On
`<revision>` the source moves the large `text` buffer out of the old value,
resets the value and moves the buffer back, emptied: content-wise this is a
plain reset to the default `Revision` (the retained capacity is a
performance property with no observable content).  The `bytes` attribute of
`<text>` only pre-reserves capacity, also content-free. -/
def RevisionListener.HandleElementBegin (rl : RevisionListener)
    (elem : String) (attrs : List String) : RevisionListener :=
  match rl.state_ with
  | .RevisionBegin =>
    if elem = "revision" then { rl with state_ := .ID, revision_ := {} } else rl
  | .ID =>
    if elem = "id" then { rl with text_ := "" } else rl
  | .ParentID =>
    -- Unconditional fallthrough into the `Timestamp` case.
    let rl1 := if elem = "parentid" then { rl with text_ := "" }
               else { rl with state_ := .Timestamp }
    if elem = "timestamp" then { rl1 with text_ := "" } else rl1
  | .Timestamp =>
    if elem = "timestamp" then { rl with text_ := "" } else rl
  | .ContributorBegin =>
    if elem = "contributor" then
      { rl with state_ := .Contributor,
                contrib_listener_ := rl.contrib_listener_.HandleElementBegin elem attrs }
    else rl
  | .Contributor =>
    { rl with contrib_listener_ := rl.contrib_listener_.HandleElementBegin elem attrs }
  | .Minor =>
    if elem = "minor" then { rl with text_ := "" }
    else if elem = "comment" then { rl with state_ := .Comment, text_ := "" }
    else if elem = "model" then { rl with state_ := .Model, text_ := "" }
    else rl
  | .Comment =>
    if elem = "comment" then { rl with state_ := .Comment, text_ := "" }
    else if elem = "model" then { rl with state_ := .Model, text_ := "" }
    else rl
  | .Model =>
    if elem = "model" then { rl with state_ := .Model, text_ := "" } else rl
  | .Format =>
    if elem = "format" then { rl with text_ := "" } else rl
  | .Text =>
    if elem = "text" then { rl with text_ := "" } else rl
  | .SHA1 =>
    if elem = "sha1" then { rl with text_ := "" } else rl
  | _ => rl

/-- `RevisionListener::HandleElementEnd` (lines 449-515). -/
def RevisionListener.HandleElementEnd (rl : RevisionListener)
    (elem : String) : RevisionListener :=
  match rl.state_ with
  | .ID =>
    match ParseUInt64 rl.text_ with
    | some v => { rl with revision_ := { rl.revision_ with id := v }, state_ := .ParentID }
    | none => rl
  | .ParentID =>
    match ParseUInt64 rl.text_ with
    | some v =>
      { rl with revision_ := { rl.revision_ with parent_id := some v },
                state_ := .Timestamp }
    | none => rl
  | .Timestamp =>
    match ParseTimestamp rl.text_ with
    | some ts =>
      { rl with revision_ := { rl.revision_ with timestamp := ts },
                state_ := .ContributorBegin }
    | none => rl
  | .Contributor =>
    -- Delegation, then fallthrough into the `ContributorEnd` case.
    let cl' := rl.contrib_listener_.HandleElementEnd elem
    if elem = "contributor" then
      { rl with contrib_listener_ := cl',
                revision_ := { rl.revision_ with contributor := cl'.GetContributor },
                state_ := .Minor }
    else { rl with contrib_listener_ := cl' }
  | .ContributorEnd =>
    if elem = "contributor" then
      { rl with revision_ :=
          { rl.revision_ with contributor := rl.contrib_listener_.GetContributor },
                state_ := .Minor }
    else rl
  | .Minor =>
    { rl with revision_ := { rl.revision_ with minor := true }, state_ := .Comment }
  | .Comment =>
    { rl with revision_ := { rl.revision_ with comment := some rl.text_ },
              state_ := .Model }
  | .Model =>
    if elem = "model" then
      { rl with revision_ := { rl.revision_ with model := rl.text_ }, state_ := .Format }
    else rl
  | .Format =>
    { rl with revision_ := { rl.revision_ with format := rl.text_ }, state_ := .Text }
  | .Text =>
    { rl with revision_ := { rl.revision_ with text := rl.text_ }, state_ := .SHA1 }
  | .SHA1 =>
    { rl with revision_ := { rl.revision_ with sha1 := rl.text_ }, state_ := .RevisionEnd }
  | .RevisionEnd =>
    if elem = "revision" then { rl with state_ := .RevisionBegin } else rl
  | _ => rl

/-! ## PageListener (wiki.cc, lines 517-705) -/

/-- `PageListener::State` (the full enumeration of `wiki.h`, including the
states that are declared but never assigned). -/
inductive PState where
  | PageBegin
  | Title
  | NS
  | ID
  | Redirect
  | Restrictions
  | AltRevisionUpload
  | Revision
  | RevisionBegin
  | RevisionEnd
  | Upload
  | UploadBegin
  | UploadEnd
  | DiscussionThreadingInfo
  | DiscussionThreadingInfoBegin
  | DiscussionThreadingInfoEnd
  | PageEnd
deriving DecidableEq, Repr

/-- Mutable parts of `PageListener`.  The separate `contrib_listener_`
member of the C++ class is never touched by any handler; it is kept for
structural fidelity. -/
structure PageListener where
  depth_ : Int := 0
  state_ : PState := .PageBegin
  text_ : String := ""
  page_ : Page := {}
  contrib_listener_ : ContributorListener := {}
  rev_listener_ : RevisionListener := {}
deriving DecidableEq, Repr

/-- `PageListener::GetPage`. -/
def PageListener.GetPage (pl : PageListener) : Page :=
  pl.page_

/-- `PageListener::HandleCharacterData` (lines 521-543). -/
def PageListener.HandleCharacterData (pl : PageListener)
    (text : String) : PageListener :=
  match pl.state_ with
  | .Title | .NS | .ID | .Redirect | .Restrictions =>
    { pl with text_ := pl.text_ ++ text }
  | .Revision =>
    { pl with rev_listener_ := pl.rev_listener_.HandleCharacterData text }
  | _ => pl

/-- The attribute scan of the `<redirect>` handler (lines 570-577): walk the
flat alternating list for a string equal to `"title"` and take the next
entry.  (When `"title"` is the final entry the C++ dereferences the end
iterator — undefined behaviour; the model returns `none`, which no claim
exercises.) -/
def redirectTitleAttr (attrs : List String) : Option String :=
  match attrs.dropWhile (· ≠ "title") with
  | _ :: v :: _ => some v
  | _ => none

/-- `PageListener::HandleElementBegin` (lines 545-627): the state switch with
its fallthrough chains, then `++depth_`. -/
def PageListener.HandleElementBegin (pl : PageListener)
    (elem : String) (attrs : List String) : PageListener :=
  let pl' :=
    match pl.state_ with
    | .PageBegin =>
      if elem = "page" then { pl with state_ := .Title, page_ := {} } else pl
    | .Title =>
      if elem = "title" then { pl with text_ := "" } else pl
    | .NS =>
      if elem = "ns" then { pl with text_ := "" } else pl
    | .ID =>
      if elem = "id" then { pl with text_ := "" } else pl
    | .Redirect =>
      if elem = "redirect" then
        match redirectTitleAttr attrs with
        | some v => { pl with page_ := { pl.page_ with redirect := some v } }
        | none => pl
      else if elem = "restrictions" then { pl with state_ := .Restrictions, text_ := "" }
      else if elem = "revision" then
        { pl with state_ := .Revision,
                  rev_listener_ := pl.rev_listener_.HandleElementBegin elem attrs }
      else if elem = "upload" then { pl with state_ := .Upload }
      else if elem = "discussionthreadinginfo" then
        { pl with state_ := .DiscussionThreadingInfo }
      else { pl with state_ := .PageEnd }
    | .Restrictions =>
      if elem = "restrictions" then { pl with text_ := "" }
      else if elem = "revision" then
        { pl with state_ := .Revision,
                  rev_listener_ := pl.rev_listener_.HandleElementBegin elem attrs }
      else if elem = "upload" then { pl with state_ := .Upload }
      else if elem = "discussionthreadinginfo" then
        { pl with state_ := .DiscussionThreadingInfo }
      else { pl with state_ := .PageEnd }
    | .AltRevisionUpload =>
      if elem = "revision" then
        { pl with state_ := .Revision,
                  rev_listener_ := pl.rev_listener_.HandleElementBegin elem attrs }
      else if elem = "upload" then { pl with state_ := .Upload }
      else if elem = "discussionthreadinginfo" then
        { pl with state_ := .DiscussionThreadingInfo }
      else { pl with state_ := .PageEnd }
    | .DiscussionThreadingInfoBegin =>
      if elem = "discussionthreadinginfo" then
        { pl with state_ := .DiscussionThreadingInfo }
      else { pl with state_ := .PageEnd }
    | .PageEnd => pl
    | .DiscussionThreadingInfo => pl
    | .Revision =>
      { pl with rev_listener_ := pl.rev_listener_.HandleElementBegin elem attrs }
    | .Upload => pl
    | _ => pl
  { pl' with depth_ := pl'.depth_ + 1 }

/-- `PageListener::HandleElementEnd` (lines 629-705): decrement the depth;
on `</page>` at depth 1 reset to `PageBegin` and suspend the scanner
(returned flag); otherwise run the state switch (which can also suspend from
the `PageEnd` state).  Returns the updated listener and whether
`Parser::Suspend` was called. -/
def PageListener.HandleElementEnd (pl : PageListener)
    (elem : String) : PageListener × Bool :=
  let d := pl.depth_ - 1
  if d = 1 ∧ elem = "page" then
    ({ pl with depth_ := d, state_ := .PageBegin }, true)
  else
    let r : PageListener × Bool :=
      match pl.state_ with
      | .Title =>
        ({ pl with page_ := { pl.page_ with title := pl.text_ }, state_ := .NS }, false)
      | .NS =>
        match ParseUInt64 pl.text_ with
        | some v => ({ pl with page_ := { pl.page_ with ns := v }, state_ := .ID }, false)
        | none => (pl, false)
      | .ID =>
        match ParseUInt64 pl.text_ with
        | some v =>
          ({ pl with page_ := { pl.page_ with id := v }, state_ := .Redirect }, false)
        | none => (pl, false)
      | .Redirect => ({ pl with state_ := .Restrictions }, false)
      | .Restrictions =>
        ({ pl with page_ := { pl.page_ with restrictions := some pl.text_ },
                   state_ := .AltRevisionUpload }, false)
      | .Revision =>
        -- Delegation, then fallthrough into the `RevisionEnd` case.
        let rl' := pl.rev_listener_.HandleElementEnd elem
        if elem = "revision" then
          ({ pl with rev_listener_ := rl',
                     page_ := { pl.page_ with
                                revisions := pl.page_.revisions ++ [rl'.GetRevision] },
                     state_ := .AltRevisionUpload }, false)
        else ({ pl with rev_listener_ := rl' }, false)
      | .RevisionEnd =>
        if elem = "revision" then
          ({ pl with page_ := { pl.page_ with
                                revisions := pl.page_.revisions ++
                                  [pl.rev_listener_.GetRevision] },
                     state_ := .AltRevisionUpload }, false)
        else (pl, false)
      | .Upload =>
        if elem = "upload" then ({ pl with state_ := .AltRevisionUpload }, false)
        else (pl, false)
      | .UploadEnd =>
        if elem = "upload" then ({ pl with state_ := .AltRevisionUpload }, false)
        else (pl, false)
      | .DiscussionThreadingInfo =>
        if elem = "discussionthreadinginfo" then ({ pl with state_ := .PageEnd }, false)
        else (pl, false)
      | .DiscussionThreadingInfoEnd =>
        if elem = "discussionthreadinginfo" then ({ pl with state_ := .PageEnd }, false)
        else (pl, false)
      | .PageEnd =>
        if elem = "page" then ({ pl with state_ := .PageBegin }, true) else (pl, false)
      | _ => (pl, false)
    ({ r.1 with depth_ := d }, r.2)

/-- Dispatch one scanner event to a `PageListener`; the flag reports a
suspension request. -/
def PageListener.HandleEvent (pl : PageListener) : Event → PageListener × Bool
  | .elemBegin n a => (pl.HandleElementBegin n a, false)
  | .chars t => (pl.HandleCharacterData t, false)
  | .elemEnd n => pl.HandleElementEnd n

/-! ## Parser and PageReader (wiki.cc, lines 34-112 and 707-740)

`Parser::Parse` pumps bytes into expat until end of stream, a suspension
(`XML_StopParser(parser, true)` called from a handler stops event delivery
at the event boundary and makes `XML_Parse` return `SUSPENDED`), or a parse
error; it returns `status != XML_STATUS_ERROR`.  `Parser::Resume` re-enters
a suspended parse and composes with `Parse` for the rest of the stream; on a
parser that is not suspended `XML_ResumeParser` reports an error and
`Resume` returns `false`. -/

/-- A parsed input: the scanner events expat delivers, and whether the byte
stream is well-formed XML (`false` places a parse error after the listed
events; an empty ill-formed document also covers the empty file, for which
expat reports "no element found"). -/
structure Document where
  events : List Event
  wellFormed : Bool
deriving DecidableEq, Repr

/-- Outcome of one pumping run. -/
inductive ParseOutcome where
  | ok
  | suspended
  | error
deriving DecidableEq, Repr

/-- Deliver events to the page listener until the event list is exhausted
(outcome `ok` or `error` by well-formedness) or the listener suspends the
scanner. -/
def pump (pl : PageListener) (events : List Event) (wf : Bool) :
    PageListener × List Event × ParseOutcome :=
  match events with
  | [] => (pl, [], if wf then .ok else .error)
  | e :: rest =>
    let r := pl.HandleEvent e
    if r.2 then (r.1, rest, .suspended) else pump r.1 rest wf

/-- Life-cycle phase of the wrapped expat parser. -/
inductive Phase where
  | ready
  | suspended
  | done
  | failed
deriving DecidableEq, Repr

/-- Model of the `Parser` object: undelivered events, well-formedness of the
remaining stream, and the parser phase. -/
structure Parser where
  rest : List Event
  wellFormed : Bool
  phase : Phase
deriving DecidableEq, Repr

/-- A fresh parser over a document (`Parser::Parser`). -/
def Parser.ofDocument (d : Document) : Parser :=
  ⟨d.events, d.wellFormed, .ready⟩

/-- Shared body of `Parser::Parse`: pump, record the resulting phase, return
`status != XML_STATUS_ERROR`. -/
def Parser.runPump (p : Parser) (pl : PageListener) : Bool × Parser × PageListener :=
  let r := pump pl p.rest p.wellFormed
  let ph : Phase :=
    match r.2.2 with
    | .suspended => .suspended
    | .ok => .done
    | .error => .failed
  (r.2.2 ≠ .error, { p with rest := r.2.1, phase := ph }, r.1)

/-- `Parser::Walk` (lines 92-95): attach the listener and parse. -/
def Parser.Walk (p : Parser) (pl : PageListener) : Bool × Parser × PageListener :=
  p.runPump pl

/-- `Parser::Resume` (lines 97-108): `XML_ResumeParser` fails on a parser
that is not suspended; otherwise event delivery continues (a renewed
suspension yields `true`, completion composes with `Parse`). -/
def Parser.Resume (p : Parser) (pl : PageListener) : Bool × Parser × PageListener :=
  match p.phase with
  | .suspended => p.runPump pl
  | _ => (false, p, pl)

/-- `PageReader::State`. -/
inductive PageReaderState where
  | Init
  | Next
  | Term
deriving DecidableEq, Repr

/-- Model of `PageReader`. -/
structure PageReader where
  parser_ : Parser
  state_ : PageReaderState := .Init
  listener_ : PageListener := {}
  page_ : Page := {}
deriving DecidableEq, Repr

/-- A fresh reader over a document (`PageReader::PageReader`). -/
def PageReader.ofDocument (d : Document) : PageReader :=
  { parser_ := Parser.ofDocument d }

/-- `PageReader::Next` (lines 712-736). -/
def PageReader.Next (r : PageReader) : Bool × PageReader :=
  match r.state_ with
  | .Init =>
    let w := r.parser_.Walk r.listener_
    if w.1 then
      (true, { r with parser_ := w.2.1, listener_ := w.2.2,
                      page_ := w.2.2.GetPage, state_ := .Next })
    else
      (false, { r with parser_ := w.2.1, listener_ := w.2.2, state_ := .Term })
  | .Next =>
    let w := r.parser_.Resume r.listener_
    if w.1 then
      (true, { r with parser_ := w.2.1, listener_ := w.2.2, page_ := w.2.2.GetPage })
    else
      (false, { r with parser_ := w.2.1, listener_ := w.2.2, state_ := .Term })
  | .Term => (false, r)

/-- `PageReader::Read` (lines 738-740). -/
def PageReader.Read (r : PageReader) : Page :=
  r.page_

/-! ## PageWriter and the Transform loop (writer.cc, transform.cc) -/

/-- One output row, in the column order of `PageWriter::GetSchema`
(`writer.cc`, lines 65-143).  `rev_timestamp` keeps the parsed civil time,
see `Revision.timestamp`. -/
structure Row where
  title : String
  ns : Nat
  id : Nat
  redirect : Option String
  restrictions : Option String
  rev_id : Nat
  rev_parent_id : Option Nat
  rev_timestamp : Tm
  rev_contrib_username : Option String
  rev_contrib_id : Option Nat
  rev_contrib_ip : Option String
  rev_minor : Bool
  rev_comment : Option String
  rev_model : String
  rev_format : String
  rev_text : String
  rev_sha1 : String
deriving DecidableEq, Repr

/-- `PageWriter::Write` (`writer.cc`, lines 17-38): one row per revision of
the page, fields streamed in schema order (`optional_cast` maps an absent
`std::optional` to a null cell, i.e. `Option` is kept as is). -/
def PageWriter.Write (page : Page) : List Row :=
  page.revisions.map fun rev =>
    { title := page.title
      ns := page.ns
      id := page.id
      redirect := page.redirect
      restrictions := page.restrictions
      rev_id := rev.id
      rev_parent_id := rev.parent_id
      rev_timestamp := rev.timestamp
      rev_contrib_username := rev.contributor.username
      rev_contrib_id := rev.contributor.id
      rev_contrib_ip := rev.contributor.ip
      rev_minor := rev.minor
      rev_comment := rev.comment
      rev_model := rev.model
      rev_format := rev.format
      rev_text := rev.text
      rev_sha1 := rev.sha1 }

/-- The pages yielded by the `while (reader.Next()) { page = reader.Read();
... }` loop of `Transform(std::istream &, std::string const &)`
(`transform.cc`, lines 81-91), with explicit fuel bounding the iteration
count. -/
def TransformPagesLoop : PageReader → Nat → List Page
  | _, 0 => []
  | r, fuel + 1 =>
    let w := r.Next
    if w.1 then w.2.Read :: TransformPagesLoop w.2 fuel else []

/-- The rows written by the same loop: each iteration performs
`writer->Write(page)`. -/
def TransformRowsLoop : PageReader → Nat → List Row
  | _, 0 => []
  | r, fuel + 1 =>
    let w := r.Next
    if w.1 then PageWriter.Write w.2.Read ++ TransformRowsLoop w.2 fuel else []

/-- Fuel sufficient for the reader loop: every `Next` call but the last two
consumes at least one event. -/
def transformFuel (d : Document) : Nat :=
  d.events.length + 2

/-- Pages yielded when transforming a document. -/
def TransformPages (d : Document) : List Page :=
  TransformPagesLoop (PageReader.ofDocument d) (transformFuel d)

/-- Rows written when transforming a document. -/
def TransformRows (d : Document) : List Row :=
  TransformRowsLoop (PageReader.ofDocument d) (transformFuel d)

/-! ## File-type sniffer (transform.cc, lines 48-77) -/

/-- `enum class FileType`. -/
inductive FileType where
  | Unknown
  | BZip2
  | XML
deriving DecidableEq, Repr

/-- The characters `std::istream::get(buf.data(), 4)` stores from the
remaining stream content: up to 3 characters, stopping before the
delimiter `'\n'` or the end of the stream. -/
def sniffStored (remaining : List Char) : List Char :=
  (remaining.take 3).takeWhile (· ≠ '\n')

/-- The three bytes `std::string_view(buf.data(), 3u)` reads from the
zero-initialised 4-byte buffer after `get` stored `stored` and
null-terminated it. -/
def bufView (stored : List Char) : List Char :=
  (stored ++ [Char.ofNat 0, Char.ofNat 0, Char.ofNat 0]).take 3

/-- Classification step shared by both `GuessFileType` overloads: a failed
`get` (zero characters stored sets `failbit`) yields `Unknown`; then the
buffer view is compared with `"BZh"`. -/
def classifyStored (stored : List Char) : FileType :=
  if stored.isEmpty then .Unknown
  else if bufView stored = ['B', 'Z', 'h'] then .BZip2
  else .XML

/-- `GuessFileType(std::istream &)` (lines 55-69) on a good stream whose
remaining content is `content`. -/
def GuessFileType (content : List Char) : FileType :=
  classifyStored (sniffStored content)

/-- Model of a `std::ifstream` for the seek-restoring overload: full
content, read position, and the two relevant state flags. -/
structure IFStream where
  content : List Char
  pos : Nat
  eofbit : Bool := false
  failbit : Bool := false
deriving DecidableEq, Repr

/-- Stream content from the current read position. -/
def IFStream.remaining (s : IFStream) : List Char :=
  s.content.drop s.pos

/-- `tellg`: `-1` when the stream is in a failed state, otherwise the
current position. -/
def IFStream.tellg (s : IFStream) : Int :=
  if s.failbit then -1 else s.pos

/-- `get(buf.data(), 4)` on the stream: the sentry fails unless the stream
is good; otherwise up to 3 characters are extracted (stopping before
`'\n'`), `eofbit` is set when the stream ran out first, and `failbit` is set
iff nothing was stored.  Returns the stored characters and the updated
stream. -/
def IFStream.getBuf (s : IFStream) : List Char × IFStream :=
  if s.failbit ∨ s.eofbit then ([], { s with failbit := true })
  else
    let stored := sniffStored s.remaining
    let hitEof := stored.length = s.remaining.length ∧ stored.length < 3
    (stored, { s with pos := s.pos + stored.length,
                      eofbit := hitEof,
                      failbit := stored.isEmpty })

/-- `seekg(p)` (C++11): clears `eofbit` first; the sentry fails on a failed
stream, making the call a no-op. -/
def IFStream.seekg (s : IFStream) (p : Int) : IFStream :=
  if s.failbit then s else { s with eofbit := false, pos := p.toNat }

/-- `GuessFileType(std::ifstream &)` (lines 48-53): remember `tellg`, sniff,
seek back. -/
def GuessFileTypeF (s : IFStream) : FileType × IFStream :=
  let pos := s.tellg
  let r := s.getBuf
  let ft := classifyStored r.1
  (ft, r.2.seekg pos)

/-! ## Bzip2 decompression adapter (bz2.cc, lines 78-137)

The libbz2 decoder is modelled as an oracle: a sequence of decode-step
results, one per `BZ2_bzDecompress` call, each carrying the return code, the
number of bytes placed into the caller's buffer (`size - avail_out`) and the
value of `is_.eof()` at that iteration's check.  `BZ2_bzDecompressInit`
success is a boolean.  Input-buffer refilling (lines 100-105) moves the
unread compressed prefix and tops the buffer up; it has no observable effect
beyond what the oracle already encodes. -/

/-- Return codes of `BZ2_bzDecompress` handled by the switch. -/
inductive BzRet where
  | ok
  | streamEnd
  | paramError
  | dataError
  | dataErrorMagic
  | memError
deriving DecidableEq, Repr

/-- One decoder call outcome. -/
structure DecodeStep where
  ret : BzRet
  produced : Nat
  eofAfter : Bool
deriving DecidableEq, Repr

/-- `ibz2streambuf::State`. -/
inductive AdapterState where
  | Init
  | Main
  | Term
deriving DecidableEq, Repr

/-- `ibz2streambuf::inflate_chunk` (lines 98-137): loop over decoder calls.
Result `none` means the oracle ran out while the code would keep looping
(never reached by the theorems); `some (st, rest, r)` gives the adapter
state after the call, the unused oracle suffix and the returned
`std::optional<size_t>` (`none` = end of stream). -/
def inflate_chunk : List DecodeStep → Option (AdapterState × List DecodeStep × Option Nat)
  | [] => none
  | step :: rest =>
    match step.ret with
    | .ok =>
      if step.produced > 0 then some (.Main, rest, some step.produced)
      else if ¬step.eofAfter then inflate_chunk rest
      else some (.Term, rest, none)
    | .streamEnd =>
      some (.Term, rest, if step.produced > 0 then some step.produced else none)
    | _ => some (.Term, rest, none)

/-- `ibz2streambuf::read_chunk` (lines 78-96): dispatch on the adapter
state; `initOk` tells whether `BZ2_bzDecompressInit` succeeds. -/
def read_chunk (st : AdapterState) (initOk : Bool) (steps : List DecodeStep) :
    Option (AdapterState × List DecodeStep × Option Nat) :=
  match st with
  | .Init => if initOk then inflate_chunk steps else some (.Term, steps, none)
  | .Main => inflate_chunk steps
  | .Term => some (.Term, steps, none)

/-! ## Output-name derivation (main.cc, lines 155-183) -/

/-- `std::filesystem::path::stem` / `extension` on a plain filename: split
at the rightmost period, except when the filename is `"."` or `".."` or the
rightmost period is the leading character. -/
def splitStem (f : String) : String × String :=
  if f = "." ∨ f = ".." then (f, "")
  else
    let cs := f.data
    let revTail := cs.reverse.takeWhile (· ≠ '.')
    if revTail.length = cs.length then (f, "")
    else
      let stemLen := cs.length - revTail.length - 1
      if stemLen = 0 then (f, "")
      else (String.mk (cs.take stemLen), String.mk (cs.drop stemLen))

/-- Strip a final `.bz2` / `.bzip2` extension (lines 164-166). -/
def stripBz2 (f : String) : String :=
  let e := (splitStem f).2
  if e = ".bz2" ∨ e = ".bzip2" then (splitStem f).1 else f

/-- The duplicate-counter key: the stem of the bz2-stripped filename
(line 169, and also the output stem of line 176). -/
def stemKey (f : String) : String :=
  (splitStem (stripBz2 f)).1

/-- `MakeTargetFiles` over source FILENAMES (the destination directory is a
constant prefix of every output path and is omitted).  `dups` models the
`std::unordered_map<std::string, size_t>` of duplicate counters. -/
def MakeTargetFiles (dups : String → Option Nat) : List String → List String
  | [] => []
  | src :: rest =>
    let key := stemKey src
    let r : Nat × (String → Option Nat) :=
      match dups key with
      | none => (0, fun k => if k = key then some 0 else dups k)
      | some c => (c + 1, fun k => if k = key then some (c + 1) else dups k)
    (key ++ ".part-" ++ toString r.1 ++ ".parquet") :: MakeTargetFiles r.2 rest

/-- Number of occurrences of a stem key in a list of source filenames. -/
def countStem (srcs : List String) (key : String) : Nat :=
  (srcs.filter fun s => stemKey s = key).length

/-- Occurrence count represented by the duplicate map: an absent key has
been seen 0 times, a key mapped to `c` has been seen `c + 1` times. -/
def lookupCount (dups : String → Option Nat) (k : String) : Nat :=
  match dups k with
  | none => 0
  | some c => c + 1

/-! ## Spec-side predicates and concrete inputs used by the theorems -/

/-- Concatenation of text chunks: expat may deliver the character data of one
element through several `HandleCharacterData` callbacks; the element's text
is their concatenation. -/
def strConcat (l : List String) : String :=
  l.foldr (· ++ ·) ""

/-- Spec-side acceptance predicate for the amended claim C4, written from
its words: the input is accepted when, after optional leading whitespace and
one optional `'+'`/`'-'` sign, at least one base-10 digit follows. -/
def AcceptsUInt64Spec (s : String) : Bool :=
  match s.data.dropWhile isSpaceC with
  | [] => false
  | c :: rest =>
    if c = '-' ∨ c = '+' then
      match rest with
      | [] => false
      | d :: _ => d.isDigit
    else c.isDigit

/-- A well-formed document with no `<page>` element. -/
def docNoPage : Document :=
  ⟨[.elemBegin "mediawiki" [], .elemEnd "mediawiki"], true⟩

/-- Does an event open a `<page>` element? -/
def isPageBeginEvent : Event → Bool
  | .elemBegin n _ => n = "page"
  | _ => false

/-- A well-formed document with two pages: page `A` carries no
`<revision>` child, page `B` carries exactly one. -/
def docB2 : Document :=
  ⟨[.elemBegin "mediawiki" [],
    .elemBegin "page" [], .elemBegin "title" [], .chars "A", .elemEnd "title",
    .elemBegin "ns" [], .chars "0", .elemEnd "ns",
    .elemBegin "id" [], .chars "1", .elemEnd "id", .elemEnd "page",
    .elemBegin "page" [], .elemBegin "title" [], .chars "B", .elemEnd "title",
    .elemBegin "ns" [], .chars "0", .elemEnd "ns",
    .elemBegin "id" [], .chars "2", .elemEnd "id",
    .elemBegin "revision" [], .elemBegin "id" [], .chars "10", .elemEnd "id",
    .elemBegin "timestamp" [], .chars "2024-01-15T09:30:00Z", .elemEnd "timestamp",
    .elemBegin "contributor" [], .elemBegin "username" [], .chars "u", .elemEnd "username",
    .elemBegin "id" [], .chars "5", .elemEnd "id", .elemEnd "contributor",
    .elemBegin "model" [], .chars "wikitext", .elemEnd "model",
    .elemBegin "format" [], .chars "text/x-wiki", .elemEnd "format",
    .elemBegin "text" ["bytes", "5"], .chars "hello", .elemEnd "text",
    .elemBegin "sha1" [], .chars "abc", .elemEnd "sha1", .elemEnd "revision",
    .elemEnd "page",
    .elemEnd "mediawiki"], true⟩

/-! ## Theorems -/

/-- Claim C1: the page iterator's `Next()` was claimed to return `true`
exactly when a page was produced by a suspension, and in particular to
return `false` on a well-formed document with no `<page>` element.  The code
behaves otherwise: `Parser::Parse` returns `status != XML_STATUS_ERROR`, so
a clean end-of-file without any suspension also makes `Walk` — and hence the
first `Next()` — succeed.  This theorem evaluates the model at the failing
input: a well-formed document with no `<page>` element (every event checked
not to open a `page` element, and the pump ending in `ok`, not
`suspended`), on which the first `Next()` returns `true`, moves to the
`Next` state and snapshots a default-constructed page with no revisions. -/
theorem c1_pageless_doc_first_next_true :
    docNoPage.wellFormed = true ∧
    docNoPage.events.all (fun e => !isPageBeginEvent e) = true ∧
    (pump {} docNoPage.events docNoPage.wellFormed).2.2 = ParseOutcome.ok ∧
    (PageReader.ofDocument docNoPage).Next.1 = true ∧
    (PageReader.ofDocument docNoPage).Next.2.state_ = PageReaderState.Next ∧
    (PageReader.ofDocument docNoPage).Next.2.Read = ({} : Page) := by
  decide

/-- Claim C9: on an opening `<contributor>` tag the `deleted` flag is set
whenever ANY string of the flat alternating attribute name/value list equals
`"deleted"` — the loop in `ContributorListener::HandleElementBegin`
(lines 246-250) compares every entry, attribute values included. -/
theorem c9_deleted_flag_scans_all_attr_strings
    (cl : ContributorListener) (attrs : List String)
    (h : cl.state_ = CState.ContributorBegin) :
    (cl.HandleElementBegin "contributor" attrs).contributor_.deleted =
      attrs.contains "deleted" := by
  cases cl
  simp_all [ContributorListener.HandleElementBegin]

/-- Witness for C9 at a concrete input where only an attribute VALUE equals
`"deleted"` (attribute name `"href"`). -/
theorem c9_witness :
    (ContributorListener.HandleElementBegin {} "contributor"
      ["href", "deleted"]).contributor_.deleted = true := by
  rw [c9_deleted_flag_scans_all_attr_strings {} ["href", "deleted"] rfl]
  decide

/-- Claim C10: when the file-stream overload of `GuessFileType` returns
`BZip2` or `XML`, it restores the read position saved with `tellg` via
`seekg`, so the downstream consumer sees the stream from the same byte (the
magic bytes included), with `failbit` and `eofbit` clear. -/
theorem c10_sniffer_restores_position
    (s : IFStream) (h1 : s.failbit = false) (h2 : s.eofbit = false)
    (h3 : (GuessFileTypeF s).1 ≠ FileType.Unknown) :
    (GuessFileTypeF s).2.pos = s.pos ∧
    (GuessFileTypeF s).2.remaining = s.remaining ∧
    (GuessFileTypeF s).2.failbit = false ∧
    (GuessFileTypeF s).2.eofbit = false := by
  have hne : (sniffStored s.remaining).isEmpty = false := by
    cases hEmpty : (sniffStored s.remaining).isEmpty
    · rfl
    · exfalso
      exact h3 (by simp [GuessFileTypeF, IFStream.getBuf, h1, h2, classifyStored, hEmpty])
  have hne' : sniffStored (List.drop s.pos s.content) ≠ [] := by
    intro h
    simp [IFStream.remaining, h] at hne
  simp [GuessFileTypeF, IFStream.getBuf, IFStream.tellg, IFStream.seekg,
        IFStream.remaining, h1, h2, hne, hne']

/-- Witness for C10: sniffing a bzip2 file positioned at its start returns
`BZip2` and leaves the stream at position 0 with clear flags. -/
theorem c10_witness :
    (GuessFileTypeF ⟨"BZhdata".data, 0, false, false⟩).1 = FileType.BZip2 ∧
    (GuessFileTypeF ⟨"BZhdata".data, 0, false, false⟩).2.pos = 0 ∧
    (GuessFileTypeF ⟨"BZhdata".data, 0, false, false⟩).2.remaining = "BZhdata".data := by
  refine ⟨by decide, ?_, ?_⟩
  · exact (c10_sniffer_restores_position ⟨"BZhdata".data, 0, false, false⟩
      rfl rfl (by decide)).1
  · exact (c10_sniffer_restores_position ⟨"BZhdata".data, 0, false, false⟩
      rfl rfl (by decide)).2.1

/-- Claim C3, counterexample: the claim says every readable stream not
starting with the bzip2 magic is classified `XML`.  But the sniffer reads
with `std::istream::get(buf.data(), 4)`, whose default delimiter is `'\n'`:
on a readable stream beginning with a newline it stores zero characters,
sets `failbit`, and `GuessFileType` returns `Unknown` although no I/O error
occurred. -/
theorem c3_counterexample :
    GuessFileType ['\n', 'a', 'b', 'c'] = FileType.Unknown ∧
    GuessFileType ['\n', 'a', 'b', 'c'] ≠ FileType.XML := by
  decide

/-- Claim C3, amended: the sniffer classifies a stream as bzip2 exactly when
its first 3 bytes are `B`, `Z`, `h`; it yields `Unknown` not only on I/O
errors but also on an empty stream or a stream whose FIRST byte is the
newline delimiter of `istream::get` (zero characters stored sets `failbit`);
every other readable stream is classified as XML. -/
theorem c3_amended (content : List Char) :
    (GuessFileType content = FileType.BZip2 ↔ content.take 3 = ['B', 'Z', 'h']) ∧
    (GuessFileType content = FileType.Unknown ↔
      content = [] ∨ content.head? = some '\n') ∧
    (content ≠ [] → content.head? ≠ some '\n' → content.take 3 ≠ ['B', 'Z', 'h'] →
      GuessFileType content = FileType.XML) := by
  have hB : ('B' : Char) ≠ '\n' := by decide
  have hZ : ('Z' : Char) ≠ '\n' := by decide
  have hh : ('h' : Char) ≠ '\n' := by decide
  have hnulZ : Char.ofNat 0 ≠ 'Z' := by decide
  have hnulh : Char.ofNat 0 ≠ 'h' := by decide
  rcases content with _ | ⟨c1, _ | ⟨c2, _ | ⟨c3, rest⟩⟩⟩
  · refine ⟨?_, ?_, ?_⟩ <;>
      simp [GuessFileType, sniffStored, classifyStored]
  · by_cases h1 : c1 = '\n' <;>
      refine ⟨?_, ?_, ?_⟩ <;>
      simp [GuessFileType, sniffStored, classifyStored, bufView, List.takeWhile_cons,
            h1, hnulZ]
  · by_cases h1 : c1 = '\n' <;> by_cases h2 : c2 = '\n' <;>
      refine ⟨?_, ?_, ?_⟩ <;>
      simp_all [GuessFileType, sniffStored, classifyStored, bufView,
                List.takeWhile_cons, hnulZ, hnulh, hZ]
  · by_cases h1 : c1 = '\n' <;> by_cases h2 : c2 = '\n' <;> by_cases h3 : c3 = '\n' <;>
      refine ⟨?_, ?_, ?_⟩ <;>
      simp_all [GuessFileType, sniffStored, classifyStored, bufView,
                List.takeWhile_cons, hnulZ, hnulh, hZ, hh] <;>
      (try (split <;> simp_all))

/-- Witness for C3 (for the hypotheses of the third conjunct): the stream
`"<m"` is nonempty, does not start with a newline, lacks the bzip2 magic,
and is classified XML. -/
theorem c3_witness : GuessFileType ['<', 'm'] = FileType.XML :=
  (c3_amended ['<', 'm']).2.2 (by decide) (by decide) (by decide)

/-- Claim C4, counterexample: the claim says any string whose prefix is not
a run of digits — for example one starting with whitespace, `'+'` or `'-'` —
yields no value.  `strtoull` accepts exactly those prefixes. -/
theorem c4_counterexample :
    ParseUInt64 "+7" = some 7 ∧
    ParseUInt64 " 8" = some 8 ∧
    ParseUInt64 "-5" = some (2 ^ 64 - 5) := by
  decide

/-- Claim C4, amended: the unsigned 64-bit parser returns a value exactly
when the string continues with at least one base-10 digit after optional
leading whitespace and one optional `'+'`/`'-'` sign (`strtoull` semantics;
`'-'` yields the unsigned negation modulo `2 ^ 64`, overflow clamps to
`2 ^ 64 - 1`); when it returns no value the target field keeps its default
(shown for the contributor-id field: the `</id>` handler leaves the whole
listener unchanged). -/
theorem c4_amended :
    (∀ s : String, (ParseUInt64 s).isSome = AcceptsUInt64Spec s) ∧
    (∀ cl : ContributorListener, cl.state_ = CState.ID →
      ParseUInt64 cl.text_ = none → cl.HandleElementEnd "id" = cl) := by
  constructor
  · intro s
    unfold ParseUInt64 AcceptsUInt64Spec
    rcases h : s.data.dropWhile isSpaceC with _ | ⟨c, rest⟩
    · simp
    · by_cases hc : c = '-' ∨ c = '+'
      · rcases rest with _ | ⟨d, rest'⟩
        · simp [hc]
        · by_cases hd : d.isDigit <;> simp [hc, hd, List.takeWhile_cons]
      · have hc' : ¬(c = '-' ∨ c = '+') := hc
        by_cases hcd : c.isDigit <;>
          simp [hc', hcd, List.takeWhile_cons,
                show ¬((c :: rest).head? = some '-' ∨ (c :: rest).head? = some '+') by
                  simpa using hc']
  · intro cl hst hparse
    cases cl
    simp_all [ContributorListener.HandleElementEnd]

/-- Witness for C4: concrete applications of both conjuncts — acceptance of
`"+7"`-style inputs matches the spec predicate, and an unparsable
accumulator (`"abc"`) leaves the contributor-id listener unchanged. -/
theorem c4_witness :
    (ParseUInt64 "+7").isSome = AcceptsUInt64Spec "+7" ∧
    ContributorListener.HandleElementEnd ⟨"abc", CState.ID, {}⟩ "id" =
      ⟨"abc", CState.ID, {}⟩ :=
  ⟨c4_amended.1 "+7", c4_amended.2 ⟨"abc", CState.ID, {}⟩ rfl (by decide)⟩

/-- Claim C5, counterexample: the claim says the first layout that FULLY
CONSUMES the input determines the result.  On
`"2024-01-15T09:30:00Zx"` neither layout consumes the whole input (the long
one leaves `"x"`, the short one fails at the first `'-'`), yet
`ParseTimestamp` succeeds: `std::get_time` never requires the input to be
exhausted, so a matched layout PREFIX wins. -/
theorem c5_counterexample :
    ConsumesAll longFmtItems "2024-01-15T09:30:00Zx" = false ∧
    ConsumesAll shortFmtItems "2024-01-15T09:30:00Zx" = false ∧
    (ParseTimestamp "2024-01-15T09:30:00Zx").isSome = true := by
  decide

/-- Claim C5, amended: parsing tries the long ISO layout
`%Y-%m-%dT%H:%M:%SZ` first and the compact `%Y%m%d%H%M%S` second, and the
first layout that MATCHES determines the result — where matching follows
`std::get_time`: a matched prefix suffices, trailing input is ignored, and
input exhausted directly after a numeric directive also counts as a match.
In particular the compact string `"20240115093000"` (no trailing `Z`)
parses, as does the long example `"2024-01-15T09:30:00Z"` via the long
layout. -/
theorem c5_amended :
    (∀ s : String, ParseTimestampLong s ≠ none →
      ParseTimestamp s = ParseTimestampLong s) ∧
    (∀ s : String, ParseTimestampLong s = none →
      ParseTimestamp s = ParseTimestampShort s) ∧
    (ParseTimestamp "20240115093000").isSome = true ∧
    ParseTimestampLong "20240115093000" = none ∧
    (ParseTimestampShort "20240115093000").isSome = true ∧
    ParseTimestamp "2024-01-15T09:30:00Z" = ParseTimestampLong "2024-01-15T09:30:00Z" ∧
    ConsumesAll longFmtItems "2024-01-15T09:30:00Z" = true := by
  refine ⟨?_, ?_, by decide, by decide, by decide, by decide, by decide⟩
  · intro s h
    unfold ParseTimestamp
    cases hl : ParseTimestampLong s
    · exact absurd hl h
    · rfl
  · intro s h
    unfold ParseTimestamp
    rw [h]
    cases hs : ParseTimestampShort s <;> rfl

/-- Witness for C5: the two conditional conjuncts applied at concrete
inputs (the long example for the first, the compact example for the
second). -/
theorem c5_witness :
    ParseTimestamp "2024-01-15T09:30:00Z" = ParseTimestampLong "2024-01-15T09:30:00Z" ∧
    ParseTimestamp "20240115093000" = ParseTimestampShort "20240115093000" :=
  ⟨c5_amended.1 "2024-01-15T09:30:00Z" (by decide),
   c5_amended.2.1 "20240115093000" (by decide)⟩

/-- Contract of the inner decode loop: a returned byte count is strictly
positive, a `none` (end-of-stream) return leaves the adapter in `Term`, and
the adapter only stays in `Main` when positive bytes were returned. -/
theorem inflate_chunk_contract (steps : List DecodeStep)
    (st' : AdapterState) (rest : List DecodeStep) (r : Option Nat)
    (h : inflate_chunk steps = some (st', rest, r)) :
    (∀ n, r = some n → 0 < n) ∧ (r = none → st' = AdapterState.Term) ∧
    (st' = AdapterState.Main → ∃ n, r = some n ∧ 0 < n) := by
  induction steps with
  | nil => simp [inflate_chunk] at h
  | cons step rest' ih =>
    rcases hret : step.ret with _ | _ | _ | _ | _ | _ <;>
      simp [inflate_chunk, hret] at h
    case ok =>
      by_cases hp : step.produced > 0
      · simp [hp] at h
        obtain ⟨h1, h2, h3⟩ := h
        subst h1; subst h2; subst h3
        exact ⟨fun n hn => by cases hn; exact hp, by simp, fun _ => ⟨step.produced, rfl, hp⟩⟩
      · by_cases he : step.eofAfter
        · simp [hp, he] at h
          obtain ⟨h1, h2, h3⟩ := h
          subst h1; subst h2; subst h3
          simp
        · simp [hp, he] at h
          exact ih h
    case streamEnd =>
      obtain ⟨h1, h2, h3⟩ := h
      subst h1; subst h2; subst h3
      by_cases hp : step.produced > 0 <;> simp_all
    all_goals
      obtain ⟨h1, h2, h3⟩ := h
      subst h1; subst h2; subst h3
      simp

/-- Claim C7: every read of the decompression adapter either returns a
strictly positive count of decoded bytes or signals end-of-stream (`none`) —
never a successful zero-byte read; an end-of-stream return always leaves the
adapter in `Term` (decoder initialisation failure, stream end and all
parameter/data/memory errors included, which also covers a stream-end that
delivered final bytes); from `Term` every further read returns end-of-stream
without touching the decoder; and any decoder call that reports an error or
stream end moves the adapter to `Term`. -/
theorem c7_read_chunk_contract :
    (∀ (st : AdapterState) (initOk : Bool) (steps : List DecodeStep)
       (st' : AdapterState) (rest : List DecodeStep) (r : Option Nat),
       read_chunk st initOk steps = some (st', rest, r) →
       (∀ n, r = some n → 0 < n) ∧ (r = none → st' = AdapterState.Term) ∧
       (st' = AdapterState.Main → ∃ n, r = some n ∧ 0 < n)) ∧
    (∀ (initOk : Bool) (steps : List DecodeStep),
       read_chunk AdapterState.Term initOk steps =
         some (AdapterState.Term, steps, none)) ∧
    (∀ (step : DecodeStep) (rest : List DecodeStep), step.ret ≠ BzRet.ok →
       ∃ r, inflate_chunk (step :: rest) = some (AdapterState.Term, rest, r) ∧
         ∀ n, r = some n → 0 < n) := by
  refine ⟨?_, fun _ _ => rfl, ?_⟩
  · intro st initOk steps st' rest r h
    match st with
    | .Init =>
      by_cases hi : initOk
      · rw [read_chunk, if_pos hi] at h
        exact inflate_chunk_contract steps st' rest r h
      · rw [read_chunk, if_neg hi] at h
        simp only [Option.some.injEq, Prod.mk.injEq] at h
        obtain ⟨h1, h2, h3⟩ := h
        subst h1; subst h2; subst h3
        simp
    | .Main => exact inflate_chunk_contract steps st' rest r h
    | .Term =>
      rw [read_chunk] at h
      simp only [Option.some.injEq, Prod.mk.injEq] at h
      obtain ⟨h1, h2, h3⟩ := h
      subst h1; subst h2; subst h3
      simp
  · intro step rest h
    rcases hret : step.ret with _ | _ | _ | _ | _ | _ <;>
      simp_all [inflate_chunk]

/-- Witness for C7: a concrete successful 5-byte read and a concrete
stream-end step. -/
theorem c7_witness : (0 : Nat) < 5 ∧ AdapterState.Term = AdapterState.Term := by
  constructor
  · exact (c7_read_chunk_contract.1 .Main true [⟨.ok, 5, false⟩] .Main [] (some 5)
      (by decide)).1 5 rfl
  · exact (c7_read_chunk_contract.1 .Main true [⟨.dataError, 0, false⟩] .Term []
      none (by decide)).2.1 rfl

/-- Each loop iteration of `Transform` writes exactly the rows of the page
it yielded, so the row trace is the concatenation of `PageWriter::Write`
over the page trace. -/
theorem TransformRowsLoop_eq_bind (fuel : Nat) :
    ∀ r : PageReader,
      TransformRowsLoop r fuel = (TransformPagesLoop r fuel).flatMap PageWriter.Write := by
  induction fuel with
  | zero => intro r; rfl
  | succ n ih =>
    intro r
    rw [TransformRowsLoop, TransformPagesLoop]
    by_cases h : r.Next.1 <;> simp [h, ih]

set_option maxHeartbeats 1000000

/-- Claim C2: for every input dump the number of output rows written by the
`Transform` loop equals the sum, over all pages the reader yields, of the
number of revisions in the yielded page; concretely, on a dump whose first
page has no `<revision>` child, that page is yielded with zero revisions,
contributes zero rows, and processing continues with the next page (the
trailing `("B", 1)` duplicate comes from `Resume` succeeding once more at
end of input, a quirk of `PageReader` outside this claim — the row count
still matches the yielded pages). -/
theorem c2_rows_eq_sum_revisions :
    (∀ d : Document,
      (TransformRows d).length =
        ((TransformPages d).map fun p => p.revisions.length).sum) ∧
    (TransformPages docB2).map (fun p => (p.title, p.revisions.length)) =
      [("A", 0), ("B", 1), ("B", 1)] ∧
    (TransformRows docB2).length = 2 := by
  refine ⟨?_, by decide, by decide⟩
  intro d
  rw [TransformRows, TransformPages, TransformRowsLoop_eq_bind]
  rw [List.length_flatMap]
  congr 1
  apply List.map_congr_left
  intro p _
  simp [PageWriter.Write]

/-- Splitting `countStem` at a cons cell. -/
theorem countStem_cons (a : String) (l : List String) (k : String) :
    countStem (a :: l) k = (if stemKey a = k then 1 else 0) + countStem l k := by
  by_cases h : stemKey a = k <;> simp [countStem, List.filter_cons, h] <;> omega

/-- Invariant-carrying specification of `MakeTargetFiles`: if the duplicate
map represents the occurrence count `cnt` of already-processed sources, then
the `i`-th output is the stem key of the `i`-th input followed by
`.part-<k>.parquet`, where `<k>` counts prior occurrences of that key. -/
theorem MakeTargetFiles_spec :
    ∀ (rest : List String) (dups : String → Option Nat) (cnt : String → Nat),
      (∀ k, lookupCount dups k = cnt k) →
      ∀ (i : Nat) (s : String), rest[i]? = some s →
        (MakeTargetFiles dups rest)[i]? =
          some (stemKey s ++ ".part-" ++
            toString (cnt (stemKey s) + countStem (rest.take i) (stemKey s)) ++
            ".parquet") := by
  intro rest
  induction rest with
  | nil => intro dups cnt hinv i s hs; simp at hs
  | cons src rest' ih =>
    intro dups cnt hinv i s hs
    have harith : ∀ C : Nat,
        (if stemKey s = stemKey src then cnt (stemKey s) + 1 else cnt (stemKey s)) + C =
          cnt (stemKey s) + ((if stemKey src = stemKey s then 1 else 0) + C) := by
      intro C
      by_cases hk : stemKey s = stemKey src
      · simp [hk]
        omega
      · have hk' : ¬stemKey src = stemKey s := fun h => hk h.symm
        simp [hk, hk']
    match i with
    | 0 =>
      simp only [List.getElem?_cons_zero, Option.some.injEq] at hs
      subst hs
      have hcnt := hinv (stemKey src)
      rw [MakeTargetFiles]
      cases hd : dups (stemKey src) <;>
        simp only [lookupCount, hd] at hcnt <;>
        simp [hd, countStem, ← hcnt]
    | i' + 1 =>
      simp only [List.getElem?_cons_succ] at hs
      rw [MakeTargetFiles]
      cases hd : dups (stemKey src)
      · have hinv' : ∀ k,
            lookupCount (fun k => if k = stemKey src then some 0 else dups k) k =
              (fun k => if k = stemKey src then cnt k + 1 else cnt k) k := by
          intro k
          have h0 := hinv k
          by_cases hk : k = stemKey src
          · subst hk
            simp only [lookupCount, hd] at h0
            simp [lookupCount, ← h0]
          · simp only [lookupCount] at h0
            simp [lookupCount, hk, h0]
        have h2 := ih (fun k => if k = stemKey src then some 0 else dups k)
          (fun k => if k = stemKey src then cnt k + 1 else cnt k) hinv' i' s hs
        simp only [hd, List.getElem?_cons_succ]
        rw [h2, List.take_succ_cons, countStem_cons, harith]
      · case some c =>
        have hinv' : ∀ k,
            lookupCount (fun k => if k = stemKey src then some (c + 1) else dups k) k =
              (fun k => if k = stemKey src then cnt k + 1 else cnt k) k := by
          intro k
          have h0 := hinv k
          by_cases hk : k = stemKey src
          · subst hk
            simp only [lookupCount, hd] at h0
            simp [lookupCount, ← h0]
          · simp only [lookupCount] at h0
            simp [lookupCount, hk, h0]
        have h2 := ih (fun k => if k = stemKey src then some (c + 1) else dups k)
          (fun k => if k = stemKey src then cnt k + 1 else cnt k) hinv' i' s hs
        simp only [hd, List.getElem?_cons_succ]
        rw [h2, List.take_succ_cons, countStem_cons, harith]

/-- Claim C8: in directory mode each output filename is derived by first
stripping a final `.bz2` / `.bzip2` extension, then replacing the remaining
final extension with `.part-<k>.parquet`, where `<k>` counts the prior
occurrences of the same stem in the source list (0 for the first occurrence,
1 for the second, and so on); the duplicate map starts empty. -/
theorem c8_make_target_files (srcs : List String) (i : Nat) (s : String)
    (h : srcs[i]? = some s) :
    (MakeTargetFiles (fun _ => none) srcs)[i]? =
      some (stemKey s ++ ".part-" ++
        toString (countStem (srcs.take i) (stemKey s)) ++ ".parquet") := by
  have h2 := MakeTargetFiles_spec srcs (fun _ => none) (fun _ => 0)
    (fun _ => rfl) i s h
  simpa using h2

/-- Witness for C8: `dump.xml.bz2` and `dump.json` share the stem `dump`, so
the second source receives the duplicate counter 1. -/
theorem c8_witness :
    (MakeTargetFiles (fun _ => none) ["dump.xml.bz2", "dump.json", "other.xml"])[1]? =
      some "dump.part-1.parquet" := by
  have h := c8_make_target_files ["dump.xml.bz2", "dump.json", "other.xml"] 1
    "dump.json" (by decide)
  rw [h]
  decide

/-- A base-10 digit is not C whitespace. -/
theorem digit_not_spaceC (c : Char) (h : c.isDigit = true) : isSpaceC c = false := by
  simp only [isSpaceC, decide_eq_false_iff_not]
  rintro (rfl | rfl | rfl | rfl | rfl | rfl) <;> exact absurd h (by decide)

/-- A base-10 digit is not the minus sign. -/
theorem digit_ne_minus (c : Char) (h : c.isDigit = true) : c ≠ '-' := by
  rintro rfl; exact absurd h (by decide)

/-- A base-10 digit is not the plus sign. -/
theorem digit_ne_plus (c : Char) (h : c.isDigit = true) : c ≠ '+' := by
  rintro rfl; exact absurd h (by decide)

/-- `ParseUInt64` succeeds on every nonempty all-digit string. -/
theorem ParseUInt64_digits_isSome (s : String) (hne : s.data ≠ [])
    (hdig : ∀ c ∈ s.data, c.isDigit = true) : (ParseUInt64 s).isSome = true := by
  unfold ParseUInt64
  rcases hd : s.data with _ | ⟨c, rest⟩
  · exact absurd hd hne
  · have hc : c.isDigit = true := hdig c (hd ▸ List.mem_cons_self c rest)
    have hsp : isSpaceC c = false := digit_not_spaceC c hc
    simp [List.dropWhile_cons, hsp, digit_ne_minus c hc, digit_ne_plus c hc,
          List.takeWhile_cons, hc]

/-- Running a run of character-data events in any of the three text-leaf
states appends their concatenation to the accumulator and changes nothing
else. -/
theorem ContributorListener.run_chars (us : List String) :
    ∀ (t : String) (st : CState) (c : Contributor),
      st = CState.Username ∨ st = CState.ID ∨ st = CState.IP →
      ContributorListener.Run ⟨t, st, c⟩ (us.map Event.chars) =
        ⟨t ++ strConcat us, st, c⟩ := by
  induction us with
  | nil =>
    intro t st c _
    simp [ContributorListener.Run, strConcat]
  | cons u rest ih =>
    intro t st c h
    have hstep : ContributorListener.HandleEvent ⟨t, st, c⟩ (.chars u) =
        ⟨t ++ u, st, c⟩ := by
      rcases h with rfl | rfl | rfl <;> rfl
    rw [List.map_cons, ContributorListener.Run, hstep, ih _ _ _ h]
    simp [strConcat, String.append_assoc]

/-- Event runs compose over list concatenation. -/
theorem ContributorListener.run_append (l1 : List Event) :
    ∀ (l2 : List Event) (cl : ContributorListener),
      cl.Run (l1 ++ l2) = (cl.Run l1).Run l2 := by
  induction l1 with
  | nil => intro l2 cl; rfl
  | cons e rest ih => intro l2 cl; rw [List.cons_append, ContributorListener.Run,
      ContributorListener.Run, ih]

/-- Left identity of string concatenation (definitional). -/
theorem empty_append_str (s : String) : "" ++ s = s := rfl

/-- Claim C6: a `<contributor>` element carrying a `deleted` attribute (the
dump convention makes such elements childless, spec data invariant) yields a
contributor with username, id and ip all unset and the deleted flag set; a
non-deleted contributor of a well-formed dump — either the
`(username, id)` shape with an all-digit id, or the `ip` shape, with the
character data of each leaf possibly split across several callbacks — yields
at least `username`/`id` set (first shape) or `ip` set (second shape), with
the deleted flag clear.  The machine may start with any accumulator and any
left-over contributor value, as it does between revisions. -/
theorem c6_contributor_deleted_and_nondeleted :
    (∀ (t : String) (c0 : Contributor) (attrs : List String),
      attrs.contains "deleted" = true →
      ContributorListener.Run ⟨t, CState.ContributorBegin, c0⟩
          [.elemBegin "contributor" attrs, .elemEnd "contributor"] =
        ⟨t, CState.ContributorBegin,
         { username := none, id := none, ip := none, deleted := true }⟩) ∧
    (∀ (t : String) (c0 : Contributor) (attrs : List String) (us ds : List String),
      attrs.contains "deleted" = false →
      (strConcat ds).data ≠ [] →
      (∀ c ∈ (strConcat ds).data, c.isDigit = true) →
      ∃ v, ParseUInt64 (strConcat ds) = some v ∧
        (ContributorListener.Run ⟨t, CState.ContributorBegin, c0⟩
            ([.elemBegin "contributor" attrs, .elemBegin "username" []] ++
              us.map Event.chars ++ [.elemEnd "username", .elemBegin "id" []] ++
              ds.map Event.chars ++ [.elemEnd "id", .elemEnd "contributor"])).contributor_ =
          { username := some (strConcat us), id := some v, ip := none,
            deleted := false }) ∧
    (∀ (t : String) (c0 : Contributor) (attrs : List String) (ps : List String),
      attrs.contains "deleted" = false →
      (ContributorListener.Run ⟨t, CState.ContributorBegin, c0⟩
          ([.elemBegin "contributor" attrs, .elemBegin "ip" []] ++
            ps.map Event.chars ++ [.elemEnd "ip", .elemEnd "contributor"])).contributor_ =
        { username := none, id := none, ip := some (strConcat ps),
          deleted := false }) := by
  refine ⟨?_, ?_, ?_⟩
  · intro t c0 attrs hdel
    have hdel' : "deleted" ∈ attrs := by simpa using hdel
    simp [ContributorListener.Run, ContributorListener.HandleEvent,
          ContributorListener.HandleElementBegin, ContributorListener.HandleElementEnd,
          hdel, hdel']
  · intro t c0 attrs us ds hdel hne hdig
    have hdel' : "deleted" ∉ attrs := by simpa using hdel
    obtain ⟨v, hv⟩ := Option.isSome_iff_exists.mp
      (ParseUInt64_digits_isSome (strConcat ds) hne hdig)
    refine ⟨v, hv, ?_⟩
    rw [ContributorListener.run_append, ContributorListener.run_append,
        ContributorListener.run_append, ContributorListener.run_append]
    have h1 : ContributorListener.Run ⟨t, CState.ContributorBegin, c0⟩
        [.elemBegin "contributor" attrs, .elemBegin "username" []] =
        ⟨"", CState.Username,
         { username := none, id := none, ip := none, deleted := false }⟩ := by
      simp [ContributorListener.Run, ContributorListener.HandleEvent,
            ContributorListener.HandleElementBegin, hdel, hdel']
    rw [h1, ContributorListener.run_chars us _ _ _ (Or.inl rfl), empty_append_str]
    have h2 : ContributorListener.Run
        ⟨strConcat us, CState.Username,
         { username := none, id := none, ip := none, deleted := false }⟩
        [.elemEnd "username", .elemBegin "id" []] =
        ⟨"", CState.ID,
         { username := some (strConcat us), id := none, ip := none,
           deleted := false }⟩ := by
      simp [ContributorListener.Run, ContributorListener.HandleEvent,
            ContributorListener.HandleElementBegin, ContributorListener.HandleElementEnd]
    rw [h2, ContributorListener.run_chars ds _ _ _ (Or.inr (Or.inl rfl)),
        empty_append_str]
    simp [ContributorListener.Run, ContributorListener.HandleEvent,
          ContributorListener.HandleElementEnd, hv]
  · intro t c0 attrs ps hdel
    have hdel' : "deleted" ∉ attrs := by simpa using hdel
    rw [ContributorListener.run_append, ContributorListener.run_append]
    have h1 : ContributorListener.Run ⟨t, CState.ContributorBegin, c0⟩
        [.elemBegin "contributor" attrs, .elemBegin "ip" []] =
        ⟨"", CState.IP,
         { username := none, id := none, ip := none, deleted := false }⟩ := by
      simp [ContributorListener.Run, ContributorListener.HandleEvent,
            ContributorListener.HandleElementBegin, hdel, hdel']
    rw [h1, ContributorListener.run_chars ps _ _ _ (Or.inr (Or.inr rfl)),
        empty_append_str]
    simp [ContributorListener.Run, ContributorListener.HandleEvent,
          ContributorListener.HandleElementEnd]

/-- Witness for C6: the three shapes at concrete inputs —
`<contributor deleted="deleted"/>`, a username/id contributor with the id
character data split into two chunks (`"1"`, `"5"`), and an ip
contributor. -/
theorem c6_witness :
    ContributorListener.Run ⟨"", CState.ContributorBegin, {}⟩
        [.elemBegin "contributor" ["deleted", "deleted"], .elemEnd "contributor"] =
      ⟨"", CState.ContributorBegin,
       { username := none, id := none, ip := none, deleted := true }⟩ ∧
    (∃ v, ParseUInt64 (strConcat ["1", "5"]) = some v ∧
      (ContributorListener.Run ⟨"x", CState.ContributorBegin, {}⟩
          ([.elemBegin "contributor" [], .elemBegin "username" []] ++
            ["u"].map Event.chars ++ [.elemEnd "username", .elemBegin "id" []] ++
            ["1", "5"].map Event.chars ++
            [.elemEnd "id", .elemEnd "contributor"])).contributor_ =
        { username := some (strConcat ["u"]), id := some v, ip := none,
          deleted := false }) ∧
    (ContributorListener.Run ⟨"", CState.ContributorBegin, {}⟩
        ([.elemBegin "contributor" [], .elemBegin "ip" []] ++
          ["1.2.3.4"].map Event.chars ++
          [.elemEnd "ip", .elemEnd "contributor"])).contributor_ =
      { username := none, id := none, ip := some (strConcat ["1.2.3.4"]),
        deleted := false } :=
  ⟨c6_contributor_deleted_and_nondeleted.1 "" {} ["deleted", "deleted"] (by decide),
   c6_contributor_deleted_and_nondeleted.2.1 "x" {} [] ["u"] ["1", "5"]
     (by decide) (by decide) (by decide),
   c6_contributor_deleted_and_nondeleted.2.2 "" {} [] ["1.2.3.4"] (by decide)⟩

end mediawiki
